import Mathlib

/-!
Verification of the Panel dashboard `app/main.py` of the multithreaded
Barnes-Hut N-body visualizer, against its design specification.

The dashboard (all of `main.py`) is embedded directly.  The native C++
extension `ParticleModel.MultithreadedParticleSystem` is not part of the
Python source; the pieces of it the dashboard relies on (constructor,
`update`, `particles`, `get_extents`, and the quadtree whose mass invariant
the spec states) are modelled from the specification and marked as such.
Python floats are modelled as real numbers.
-/

namespace NBodyApp

/-- A body of the simulation: position `(x, y)`, velocity `(vx, vy)`, mass `m`. -/
structure Particle where
  x : ℝ
  y : ℝ
  vx : ℝ
  vy : ℝ
  m : ℝ

/-- An axis-aligned rectangle `(x0, y0, x1, y1)`, as streamed for extents. -/
abbrev Rect := ℝ × ℝ × ℝ × ℝ

/-- The six construction parameters, in the positional order of the
`MultithreadedParticleSystem(num_particles, bounds, seed, theta, dt,
thread_count)` call. -/
structure Config where
  num_particles : ℕ
  bounds : ℝ
  seed : ℤ
  theta : ℝ
  dt : ℝ
  thread_count : ℕ

/-- Modelled from the spec: the state the facade exposes to the dashboard —
the configuration (fixed at construction), the particle store, and the
regions of the most recently built quadtree (empty before the first step). -/
structure ModelState where
  config : Config
  particles : List Particle
  extents : List Rect

/-- The seeded random initial-condition source: given the seed and a particle
index, the initial position and mass.  The spec leaves the concrete
distribution to the native code, so it is a parameter of the embedding. -/
abbrev Gen := ℤ → ℕ → ℝ × ℝ × ℝ

/-- Modelled from the spec: `construct(num_particles, bounds, seed, theta, dt,
thread_count)` initializes the Particle Store with `num_particles` entries at
seeded random positions, zero velocities; the extent accessor is empty before
the first step. -/
def MultithreadedParticleSystem (gen : Gen) (num_particles : ℕ) (bounds : ℝ)
    (seed : ℤ) (theta : ℝ) (dt : ℝ) (thread_count : ℕ) : ModelState :=
  { config := ⟨num_particles, bounds, seed, theta, dt, thread_count⟩
    particles := (List.range num_particles).map fun i =>
      { x := (gen seed i).1, y := (gen seed i).2.1, vx := 0, vy := 0,
        m := (gen seed i).2.2 }
    extents := [] }

/-- The physics of one step, abstract to the dashboard: from the configuration
and the current particle store, the updated particle store and the regions of
the tree built during the step.  `main.py` only ever calls it as
`model.update()` for its side effect. -/
abbrev Phys := Config → List Particle → List Particle × List Rect

/-- Modelled from the spec: `step()` runs one build/evaluate/integrate cycle,
mutating the Particle Store in place and rebuilding the tree; the
configuration is fixed at construction, so it is unchanged.  The return value
of the Python call is `None` and is discarded by every caller. -/
def ModelState.update (phys : Phys) (s : ModelState) : ModelState :=
  { config := s.config
    particles := (phys s.config s.particles).1
    extents := (phys s.config s.particles).2 }

/-- `model.get_extents()`. -/
def ModelState.get_extents (s : ModelState) : List Rect :=
  s.extents

/-- The dataframe `[[particle.x, particle.y, particle.m] for particle in
model.particles]` with columns `x, y, m`, built identically by
`update_model`, `play` (stop branch), `reset` and `edit_model`. -/
def ModelState.snapshot (s : ModelState) : List (ℝ × ℝ × ℝ) :=
  s.particles.map fun p => (p.x, p.y, p.m)

/-- One message through the holoviews `Pipe`: the particle dataframe and the
extent dataframe. -/
abbrev Msg := List (ℝ × ℝ × ℝ) × List Rect

/-- The widget values of the sidebar, with the types their widgets carry.
`num_particles_per_thread` is the value of the `Particles per Thread`
`FloatSlider(start=1, end=1000, step=1)`: its attainable values are exactly
the integers 1..1000, so it is carried as a natural number. -/
structure Widgets where
  seed : ℤ
  num_particles_per_thread : ℕ
  bounds : ℝ
  time_delta : ℝ
  theta : ℝ
  thread_count : ℕ
  fps : ℤ
  quadtree_display : Bool

/-- The state of the dashboard globals: `model`, `periodic_callback`
(`none` = Python `None`, `some b` = a callback object with `running = b`),
`table.disabled`, `table.value`, `play_button.name`, `framewise`, and the
sequence of messages sent through `particle_pipe` (most recent first).
`model` is `none` only before the `onload` reset; the dashboard never reads
it then. -/
structure DashState where
  model : Option ModelState
  periodic_callback : Option Bool
  table_disabled : Bool
  table_value : List (ℝ × ℝ × ℝ)
  play_button_name : String
  framewise : Bool
  pipe : List Msg

/-- The dashboard state right after module load, before `pn.state.onload`
fires: `model = None`, `periodic_callback = None`,
`Tabulator(disabled=False)` with no value, `play_button` named `Play`,
`framewise = True`, `Pipe(data=[])` with nothing sent yet. -/
def initState : DashState :=
  { model := none
    periodic_callback := none
    table_disabled := false
    table_value := []
    play_button_name := "Play"
    framewise := true
    pipe := [] }

/-- `update_model`: step the model once, then pack the post-step particle
state and extents into dataframes, send them through the pipe, and write the
particle dataframe to the table. -/
def update_model (phys : Phys) (s : DashState) : DashState :=
  match s.model with
  | none => s
  | some m =>
    let m' := m.update phys
    let particle_data := m'.snapshot
    let extent_data := m'.get_extents
    { s with model := some m'
             pipe := (particle_data, extent_data) :: s.pipe
             table_value := particle_data }

/-- `play`: if no periodic callback is scheduled (or it is stopped), rename
the button to `Stop`, schedule the periodic callback, and disable the table;
otherwise rename to `Play`, stop the callback, re-enable the table, and send
the current model state through the pipe. -/
def play (s : DashState) : DashState :=
  match s.periodic_callback with
  | some true =>
    let s1 := { s with play_button_name := "Play"
                       periodic_callback := some false
                       table_disabled := false }
    match s1.model with
    | none => s1
    | some m => { s1 with pipe := (m.snapshot, m.get_extents) :: s1.pipe }
  | _ =>
    { s with play_button_name := "Stop"
             periodic_callback := some true
             table_disabled := true }

/-- The velocity initialization of one particle inside `reset`'s loop:
`r = np.hypot(particle.x, particle.y)`; if `r > 1.0e-8` set
`vx = -y / r` and `vy = x / r`, else leave the particle untouched. -/
noncomputable def orbital_velocity (p : Particle) : Particle :=
  let r := Real.sqrt (p.x ^ 2 + p.y ^ 2)
  if r > 1.0e-8 then { p with vx := -p.y / r, vy := p.x / r } else p

/-- `reset`: stop a running periodic callback, drop it, reconstruct the model
from the widgets with `num_particles = num_particles_slider.value *
thread_count_slider.value`, set the orbital velocities, then stream the
initial particle frame together with the single dashboard-built root
rectangle `(-bounds, -bounds, bounds, bounds)` (with `framewise` toggled
true around the send and false after), fill the table and enable it. -/
noncomputable def reset (gen : Gen) (w : Widgets) (s : DashState) : DashState :=
  let s1 := match s.periodic_callback with
    | some true => { s with play_button_name := "Play", periodic_callback := some false }
    | _ => s
  let s2 := { s1 with periodic_callback := none }
  let num_particles := w.num_particles_per_thread * w.thread_count
  let m0 := MultithreadedParticleSystem gen num_particles w.bounds w.seed
    w.theta w.time_delta w.thread_count
  let m := { m0 with particles := m0.particles.map orbital_velocity }
  let particle_data := m.snapshot
  let extent_data : List Rect := [(-w.bounds, -w.bounds, w.bounds, w.bounds)]
  { s2 with model := some m
            framewise := false
            pipe := (particle_data, extent_data) :: s2.pipe
            table_value := particle_data
            table_disabled := false }

/-- In-place update of the element at an index of a list, leaving the rest of
the list untouched (the Python attribute assignment
`model.particles[event.row].x = event.value`; an out-of-range index, which
Python would reject with `IndexError`, leaves the list unchanged). -/
def setAt (f : Particle → Particle) : List Particle → ℕ → List Particle
  | [], _ => []
  | p :: ps, 0 => f p :: ps
  | p :: ps, n + 1 => p :: setAt f ps n

/-- `edit_model`: assign the edited value to the `x`, `y` or `m` attribute of
the particle at the edited row, then stream the current particle frame and
model extents through the pipe. -/
def edit_model (s : DashState) (column : String) (row : ℕ) (v : ℝ) : DashState :=
  match s.model with
  | none => s
  | some m =>
    let m' :=
      if column = "x" then { m with particles := setAt (fun p => { p with x := v }) m.particles row }
      else if column = "y" then { m with particles := setAt (fun p => { p with y := v }) m.particles row }
      else if column = "m" then { m with particles := setAt (fun p => { p with m := v }) m.particles row }
      else m
    { s with model := some m'
             pipe := (m'.snapshot, m'.get_extents) :: s.pipe }

/-- What `visualize_model` renders from one pipe message: the points get the
particle dataframe, the rectangle overlay gets the extent dataframe with
alpha `0.25 * int(quadtree_display.value)`.  It reads no model state. -/
structure Overlay where
  points : List (ℝ × ℝ × ℝ)
  rectangles : List Rect
  rect_alpha : ℝ

/-- `visualize_model`: falsy data renders an empty overlay, otherwise the
particle frame as points and the extent frame as rectangles. -/
def visualize_model (quadtree_display : Bool) (data : Option Msg) : Overlay :=
  match data with
  | none => { points := [], rectangles := [], rect_alpha := 0 }
  | some d =>
    { points := d.1
      rectangles := d.2
      rect_alpha := 0.25 * (if quadtree_display then 1 else 0) }

/-- The UI events after load: a click of the play/stop button, one firing of
the periodic callback, a click of the reset button reading the widget values
at click time, and a table edit.  The periodic callback fires only while it
is scheduled and running; the table delivers edits only while it is enabled. -/
inductive Ev where
  | playClick : Ev
  | updateTick : Ev
  | resetClick : Widgets → Ev
  | tableEdit : String → ℕ → ℝ → Ev

/-- One dashboard transition. -/
noncomputable def dash_step (gen : Gen) (phys : Phys) (s : DashState) : Ev → DashState
  | .playClick => play s
  | .updateTick => if s.periodic_callback = some true then update_model phys s else s
  | .resetClick w => reset gen w s
  | .tableEdit c row v => if s.table_disabled then s else edit_model s c row v

/-- The dashboard state right after `pn.state.onload(lambda: reset(None))`
runs, with the widgets at values `w0`. -/
noncomputable def loaded (gen : Gen) (_phys : Phys) (w0 : Widgets) : DashState :=
  reset gen w0 initState

/-- The states the dashboard can reach after load. -/
inductive Reachable (gen : Gen) (phys : Phys) : DashState → Prop
  | load (w0 : Widgets) : Reachable gen phys (loaded gen phys w0)
  | step (s : DashState) (e : Ev) : Reachable gen phys s →
      Reachable gen phys (dash_step gen phys s e)

/-!
The Barnes-Hut quadtree of the native core, modelled from the spec (§4.2):
the builder starts from a single leaf covering the root bounds and inserts
particles one at a time; a leaf that already holds a particle is subdivided
into four equal quadrants and its occupants re-inserted, with subdivision
depth capped so that particles beyond the cap are merged as coincident at
that leaf; a particle outside a node's bounds is clamped into the nearest
quadrant for indexing only.  Aggregate mass is computed bottom-up: a leaf
contributes the masses it holds, an internal node the sum over its children.
-/

/-- A square region of the quadtree, `(x0, y0)` lower-left and `(x1, y1)`
upper-right corners. -/
structure Box where
  x0 : ℝ
  y0 : ℝ
  x1 : ℝ
  y1 : ℝ

/-- Modelled from the spec: a quadtree node is a leaf region holding the
particles that ended there (zero or one, except coincident merges at the
depth cap), or an internal region with four quadrant children. -/
inductive QTree where
  | leaf : Box → List Particle → QTree
  | quad : Box → QTree → QTree → QTree → QTree → QTree

/-- The four equal quadrants of a box: nw, ne, sw, se. -/
noncomputable def Box.quadrants (b : Box) : Box × Box × Box × Box :=
  let mx := (b.x0 + b.x1) / 2
  let my := (b.y0 + b.y1) / 2
  (⟨b.x0, my, mx, b.y1⟩, ⟨mx, my, b.x1, b.y1⟩, ⟨b.x0, b.y0, mx, my⟩, ⟨mx, b.y0, b.x1, my⟩)

/-- A fresh internal node over a box: four empty leaf quadrants. -/
noncomputable def emptyQuad (b : Box) : QTree :=
  let q := b.quadrants
  .quad b (.leaf q.1 []) (.leaf q.2.1 []) (.leaf q.2.2.1 []) (.leaf q.2.2.2 [])

mutual

/-- Modelled from the spec: insert one particle.  An empty leaf takes it; an
occupied leaf at the depth cap merges it as coincident; an occupied leaf with
depth budget left is subdivided and all of its occupants plus the new
particle are re-inserted one level down; at an internal node, descend into
the quadrant containing the particle (comparison against the midlines also
clamps out-of-bounds particles into the nearest quadrant). -/
noncomputable def insertP : ℕ → Particle → QTree → QTree
  | _, p, .leaf b [] => .leaf b [p]
  | 0, p, .leaf b qs => .leaf b (p :: qs)
  | fuel + 1, p, .leaf b qs => insertMany fuel (p :: qs) (emptyQuad b)
  | fuel, p, .quad b nw ne sw se =>
    let mx := (b.x0 + b.x1) / 2
    let my := (b.y0 + b.y1) / 2
    if p.y < my then
      if p.x < mx then .quad b nw ne (insertP fuel p sw) se
      else .quad b nw ne sw (insertP fuel p se)
    else
      if p.x < mx then .quad b (insertP fuel p nw) ne sw se
      else .quad b nw (insertP fuel p ne) sw se
termination_by fuel _ t => (fuel, 0, sizeOf t)

/-- Insert a list of particles one at a time. -/
noncomputable def insertMany : ℕ → List Particle → QTree → QTree
  | _, [], t => t
  | fuel, p :: ps, t => insertMany fuel ps (insertP fuel p t)
termination_by fuel ps _ => (fuel, ps.length + 1, 0)

end

/-- Modelled from the spec: the per-step tree build — insert the particles
one at a time into a single leaf covering the root bounds.  `fuel` is the
subdivision depth cap. -/
noncomputable def buildTree (fuel : ℕ) (b : Box) (ps : List Particle) : QTree :=
  insertMany fuel ps (.leaf b [])

/-- Modelled from the spec: bottom-up aggregate mass — a leaf's aggregate is
the mass it holds, an internal node's is the sum over its four children. -/
def aggMass : QTree → ℝ
  | .leaf _ ps => (ps.map Particle.m).sum
  | .quad _ nw ne sw se => aggMass nw + aggMass ne + aggMass sw + aggMass se

/-- The sum of the masses of a particle list. -/
def massSum (ps : List Particle) : ℝ :=
  (ps.map Particle.m).sum

/-- Modelled from the spec: the integrator's semi-implicit Euler update of
one particle with acceleration `(ax, ay)` over time delta `dt`; it touches
only velocity and position, never mass. -/
def integrateP (ax ay dt : ℝ) (p : Particle) : Particle :=
  let vx := p.vx + ax * dt
  let vy := p.vy + ay * dt
  { p with vx := vx, vy := vy, x := p.x + vx * dt, y := p.y + vy * dt }

/-- A fresh internal node carries no mass. -/
theorem aggMass_emptyQuad (b : Box) : aggMass (emptyQuad b) = 0 := by
  simp [emptyQuad, Box.quadrants, aggMass]

/-- Inserting a list adds exactly the list's mass, provided single insertion
at the same depth budget does. -/
theorem aggMass_insertMany_of (fuel : ℕ)
    (hA : ∀ p t, aggMass (insertP fuel p t) = p.m + aggMass t) :
    ∀ ps t, aggMass (insertMany fuel ps t) = massSum ps + aggMass t := by
  intro ps
  induction ps with
  | nil => intro t; simp [insertMany, massSum]
  | cons p ps ih =>
    intro t
    rw [insertMany, ih, hA]
    simp [massSum]
    ring

/-- Inserting one particle adds exactly its mass to the aggregate. -/
theorem aggMass_insertP (fuel : ℕ) :
    ∀ p t, aggMass (insertP fuel p t) = p.m + aggMass t := by
  induction fuel using Nat.strong_induction_on with
  | _ fuel ih =>
    intro p t
    induction t with
    | leaf b qs =>
      match fuel with
      | 0 =>
        cases qs with
        | nil => simp [insertP, aggMass]
        | cons q qs => simp [insertP, aggMass]
      | g + 1 =>
        cases qs with
        | nil => simp [insertP, aggMass]
        | cons q qs =>
          rw [insertP, aggMass_insertMany_of g (fun p t => ih g (Nat.lt_succ_self g) p t),
            aggMass_emptyQuad, massSum, List.map_cons, List.sum_cons]
          · simp [aggMass, massSum]
          · simp
    | quad b nw ne sw se ihnw ihne ihsw ihse =>
      rw [insertP]
      split
      · split
        · simp only [aggMass, ihsw]; ring
        · simp only [aggMass, ihse]; ring
      · split
        · simp only [aggMass, ihnw]; ring
        · simp only [aggMass, ihne]; ring

/-- A concrete widget configuration, used to instantiate the theorems:
seed 1337, 1 particle per thread, bounds 100, time delta 0.1, theta 0.5,
1 thread, 30 FPS, quadtree overlay off. -/
noncomputable def W0 : Widgets :=
  { seed := 1337, num_particles_per_thread := 1, bounds := 100,
    time_delta := 0.1, theta := 0.5, thread_count := 1, fps := 30,
    quadtree_display := false }

/-!  Field behavior of the callbacks, used for the reachability invariant. -/

theorem play_periodic_callback (s : DashState) :
    (play s).periodic_callback =
      if s.periodic_callback = some true then some false else some true := by
  cases hpc : s.periodic_callback with
  | none => simp [play, hpc]
  | some b => cases b <;> cases hm : s.model <;> simp [play, hpc, hm]

theorem play_table_disabled (s : DashState) :
    (play s).table_disabled =
      if s.periodic_callback = some true then false else true := by
  cases hpc : s.periodic_callback with
  | none => simp [play, hpc]
  | some b => cases b <;> cases hm : s.model <;> simp [play, hpc, hm]

theorem update_model_periodic_callback (phys : Phys) (s : DashState) :
    (update_model phys s).periodic_callback = s.periodic_callback := by
  cases hm : s.model <;> simp [update_model, hm]

theorem update_model_table_disabled (phys : Phys) (s : DashState) :
    (update_model phys s).table_disabled = s.table_disabled := by
  cases hm : s.model <;> simp [update_model, hm]

theorem edit_model_periodic_callback (s : DashState) (c : String) (row : ℕ) (v : ℝ) :
    (edit_model s c row v).periodic_callback = s.periodic_callback := by
  cases hm : s.model <;> simp [edit_model, hm]

theorem edit_model_table_disabled (s : DashState) (c : String) (row : ℕ) (v : ℝ) :
    (edit_model s c row v).table_disabled = s.table_disabled := by
  cases hm : s.model <;> simp [edit_model, hm]

theorem reset_periodic_callback (gen : Gen) (w : Widgets) (s : DashState) :
    (reset gen w s).periodic_callback = none := rfl

theorem reset_table_disabled (gen : Gen) (w : Widgets) (s : DashState) :
    (reset gen w s).table_disabled = false := rfl

/-- Claim C1: in every reachable state of the dashboard after load, across
any sequence of play, stop, reset, table-edit and periodic-update events, the
particle table accepts edits (`table.disabled` is `False`) if and only if the
periodic stepping callback is not scheduled and running — so, since the table
delivers edit events only while enabled, no particle mutation via the table
can occur while the periodic stepping is active. -/
theorem table_enabled_iff_not_running (gen : Gen) (phys : Phys) (s : DashState)
    (h : Reachable gen phys s) :
    s.table_disabled = false ↔ ¬s.periodic_callback = some true := by
  induction h with
  | load w0 => simp [loaded, reset_table_disabled, reset_periodic_callback]
  | step s e hr ih =>
    cases e with
    | playClick =>
      simp only [dash_step, play_table_disabled, play_periodic_callback]
      by_cases hpc : s.periodic_callback = some true <;> simp [hpc]
    | updateTick =>
      simp only [dash_step]
      by_cases hpc : s.periodic_callback = some true
      · simpa [hpc, update_model_table_disabled, update_model_periodic_callback] using ih
      · simpa [hpc] using ih
    | resetClick w =>
      simp [dash_step, reset_table_disabled, reset_periodic_callback]
    | tableEdit c row v =>
      simp only [dash_step]
      by_cases hd : s.table_disabled = true
      · simpa [hd] using ih
      · simpa [hd, edit_model_table_disabled, edit_model_periodic_callback] using ih

/-- The loaded dashboard state is reachable, and in it the table accepts
edits while no periodic callback is scheduled: a concrete instance of the
invariant at a specific generator, physics and widget configuration. -/
theorem table_enabled_iff_not_running_witness :
    ((loaded (fun _ _ => (3, 4, 1)) (fun _ ps => (ps, [])) W0).table_disabled = false ↔
      ¬(loaded (fun _ _ => (3, 4, 1)) (fun _ ps => (ps, [])) W0).periodic_callback = some true) :=
  table_enabled_iff_not_running _ _ _ (Reachable.load W0)

/-!  Frame behavior of `setAt`. -/

theorem setAt_length (f : Particle → Particle) :
    ∀ (l : List Particle) (i : ℕ), (setAt f l i).length = l.length := by
  intro l
  induction l with
  | nil => intro i; rfl
  | cons p ps ih => intro i; cases i <;> simp [setAt, ih]

theorem setAt_getElem?_eq (f : Particle → Particle) :
    ∀ (l : List Particle) (i : ℕ), (setAt f l i)[i]? = l[i]?.map f := by
  intro l
  induction l with
  | nil => intro i; rfl
  | cons p ps ih => intro i; cases i <;> simp [setAt, ih]

theorem setAt_getElem?_ne (f : Particle → Particle) :
    ∀ (l : List Particle) (i j : ℕ), j ≠ i → (setAt f l i)[j]? = l[j]? := by
  intro l
  induction l with
  | nil => intro i j _; rfl
  | cons p ps ih =>
    intro i j hij
    cases i with
    | zero => cases j with
      | zero => exact absurd rfl hij
      | succ j => simp [setAt]
    | succ i => cases j with
      | zero => simp [setAt]
      | succ j => simpa [setAt] using ih i j (by omega)

/-- Claim C2: for a table edit event with column `c` in `{x, y, m}`, row
`row` and value `v`, `edit_model` assigns `v` to exactly attribute `c` of the
particle at index `row` (its other attributes are those of the old particle)
and leaves every other particle, the configuration and the extents untouched;
reading the edited field of the edited row back returns exactly `v`. -/
theorem edit_model_updates_exactly_one_field (s : DashState) (m : ModelState)
    (c : String) (row : ℕ) (v : ℝ)
    (hc : c = "x" ∨ c = "y" ∨ c = "m") :
    ∃ m', (edit_model { s with model := some m } c row v).model = some m' ∧
      m'.config = m.config ∧
      m'.extents = m.extents ∧
      m'.particles.length = m.particles.length ∧
      m'.particles[row]? = m.particles[row]?.map (fun p =>
        if c = "x" then { p with x := v }
        else if c = "y" then { p with y := v }
        else { p with m := v }) ∧
      (∀ j, j ≠ row → m'.particles[j]? = m.particles[j]?) := by
  rcases hc with hc | hc | hc <;> subst hc
  · refine ⟨{ m with particles := setAt (fun p => { p with x := v }) m.particles row },
      ?_, rfl, rfl, setAt_length _ _ _, ?_, fun j hj => setAt_getElem?_ne _ _ _ _ hj⟩
    · simp [edit_model]
    · simp [setAt_getElem?_eq]
  · refine ⟨{ m with particles := setAt (fun p => { p with y := v }) m.particles row },
      ?_, rfl, rfl, setAt_length _ _ _, ?_, fun j hj => setAt_getElem?_ne _ _ _ _ hj⟩
    · simp [edit_model]
    · simp [setAt_getElem?_eq]
  · refine ⟨{ m with particles := setAt (fun p => { p with m := v }) m.particles row },
      ?_, rfl, rfl, setAt_length _ _ _, ?_, fun j hj => setAt_getElem?_ne _ _ _ _ hj⟩
    · simp [edit_model]
    · simp [setAt_getElem?_eq]

/-- A concrete two-particle model state, used to instantiate theorems. -/
noncomputable def M2 : ModelState :=
  { config := ⟨2, 100, 1337, 0.5, 0.1, 1⟩
    particles := [⟨1, 2, 0, 0, 3⟩, ⟨4, 5, 0, 0, 6⟩]
    extents := [] }

/-- Editing the mass of row 0 of a concrete two-particle model: the edited
mass reads back as the edited value and the other particle is untouched. -/
theorem edit_model_updates_exactly_one_field_witness :
    ∃ m', (edit_model { initState with model := some M2 } "m" 0 5).model = some m' ∧
      m'.config = M2.config ∧
      m'.extents = M2.extents ∧
      m'.particles.length = M2.particles.length ∧
      m'.particles[0]? = M2.particles[0]?.map (fun p =>
        if "m" = "x" then { p with x := 5 }
        else if "m" = "y" then { p with y := 5 }
        else { p with m := 5 }) ∧
      (∀ j, j ≠ 0 → m'.particles[j]? = M2.particles[j]?) :=
  edit_model_updates_exactly_one_field initState M2 "m" 0 5 (Or.inr (Or.inr rfl))

/-- Claim C3: `update_model` advances the model by exactly one simulation
step and only then reads its state: the message sent through the pipe is the
post-step particle store as ordered (x, y, m) triples paired with the
post-step tree regions as ordered (x0, y0, x1, y1) rectangles, the particle
frame is also written to the table, and nothing else of the dashboard state
changes.  The step is invoked purely for its side effect: its return value
appears nowhere in the result. -/
theorem update_model_steps_then_reads (phys : Phys) (m : ModelState) (s : DashState) :
    update_model phys { s with model := some m } =
      { s with
        model := some (m.update phys)
        pipe := ((m.update phys).particles.map fun p => (p.x, p.y, p.m),
                  (m.update phys).extents) :: s.pipe
        table_value := (m.update phys).particles.map fun p => (p.x, p.y, p.m) } := rfl

/-- Claim C4: every model construction by the dashboard (the single call in
`reset`) passes the six configuration parameters positionally in the order
(num_particles, bounds, seed, theta, dt, thread_count), each taken from the
corresponding widget (`num_particles` as the per-thread slider value times
the thread count). -/
theorem reset_constructor_argument_order (gen : Gen) (w : Widgets) (s : DashState) :
    ∃ m0, m0 = MultithreadedParticleSystem gen
        (w.num_particles_per_thread * w.thread_count) w.bounds w.seed
        w.theta w.time_delta w.thread_count ∧
      (reset gen w s).model = some { m0 with particles := m0.particles.map orbital_velocity } ∧
      m0.config = ⟨w.num_particles_per_thread * w.thread_count, w.bounds,
        w.seed, w.theta, w.time_delta, w.thread_count⟩ :=
  ⟨_, rfl, rfl, rfl⟩

/-- Claim C6: the extent accessor of a freshly constructed model yields no
rectangles, and the extent frame `reset` streams is exactly the one root
square (-bounds, -bounds, bounds, bounds) built from the bounds slider by the
dashboard itself — consistent with the model's (empty) extent accessor not
being consulted. -/
theorem reset_extent_frame_is_root_square (gen : Gen) (num_particles : ℕ)
    (bounds : ℝ) (seed : ℤ) (theta : ℝ) (dt : ℝ) (thread_count : ℕ)
    (w : Widgets) (s : DashState) :
    (MultithreadedParticleSystem gen num_particles bounds seed theta dt
      thread_count).get_extents = [] ∧
    ((reset gen w s).pipe.head?.map Prod.snd) =
      some [(-w.bounds, -w.bounds, w.bounds, w.bounds)] :=
  ⟨rfl, rfl⟩

/-- Claim C7: the configuration reaches the model only through the
constructor call inside `reset`; every other event (play/stop click, a
periodic update, a table edit — and `visualize_model`, which takes no model
at all) leaves the existing model's configuration unchanged. -/
theorem config_only_changed_by_reset (gen : Gen) (phys : Phys) (s : DashState)
    (e : Ev) (m : ModelState) (hm : s.model = some m)
    (he : ∀ w, e ≠ Ev.resetClick w) :
    ∃ m', (dash_step gen phys s e).model = some m' ∧ m'.config = m.config := by
  cases e with
  | playClick =>
    cases hpc : s.periodic_callback with
    | none => exact ⟨m, by simp [dash_step, play, hpc, hm], rfl⟩
    | some b =>
      cases b
      · exact ⟨m, by simp [dash_step, play, hpc, hm], rfl⟩
      · exact ⟨m, by simp [dash_step, play, hpc, hm], rfl⟩
  | updateTick =>
    by_cases hpc : s.periodic_callback = some true
    · exact ⟨m.update phys, by simp [dash_step, hpc, update_model, hm], rfl⟩
    · exact ⟨m, by simp [dash_step, hpc, hm], rfl⟩
  | resetClick w => exact absurd rfl (he w)
  | tableEdit c row v =>
    by_cases hd : s.table_disabled = true
    · exact ⟨m, by simp [dash_step, hd, hm], rfl⟩
    · refine ⟨if c = "x" then { m with particles := setAt (fun p => { p with x := v }) m.particles row }
        else if c = "y" then { m with particles := setAt (fun p => { p with y := v }) m.particles row }
        else if c = "m" then { m with particles := setAt (fun p => { p with m := v }) m.particles row }
        else m, ?_, ?_⟩
      · simp [dash_step, hd, edit_model, hm]
      · split_ifs <;> rfl

/-- A play click on a concrete dashboard state holding a model leaves that
model's configuration unchanged. -/
theorem config_only_changed_by_reset_witness :
    ∃ m', (dash_step (fun _ _ => (3, 4, 1)) (fun _ ps => (ps, []))
        { initState with model := some M2 } Ev.playClick).model = some m' ∧
      m'.config = M2.config :=
  config_only_changed_by_reset _ _ _ _ M2 rfl (fun _ h => Ev.noConfusion h)

/-- Claim C9: the `num_particles` argument `reset` passes to the constructor
is the `Particles per Thread` slider value times the selected thread count,
so the total particle count is an exact multiple of the thread count. -/
theorem reset_particle_count_multiple_of_threads (gen : Gen) (w : Widgets) (s : DashState) :
    ((reset gen w s).model.map fun m => m.config.num_particles) =
      some (w.num_particles_per_thread * w.thread_count) ∧
    w.thread_count ∣ w.num_particles_per_thread * w.thread_count :=
  ⟨rfl, dvd_mul_left _ _⟩

/-- Claim C5: after `reset`, every particle whose distance
`r = hypot(x, y)` from the origin exceeds `1e-8` has velocity
`(-y/r, x/r)` — a vector perpendicular to its position with magnitude 1 —
and every particle with `r ≤ 1e-8` keeps the zero velocity the constructor
gave it. -/
theorem reset_orbital_velocities (gen : Gen) (w : Widgets) (s : DashState)
    (q : Particle)
    (hq : q ∈ ((reset gen w s).model.elim [] ModelState.particles)) :
    (1.0e-8 < Real.sqrt (q.x ^ 2 + q.y ^ 2) →
      q.vx = -q.y / Real.sqrt (q.x ^ 2 + q.y ^ 2) ∧
      q.vy = q.x / Real.sqrt (q.x ^ 2 + q.y ^ 2) ∧
      q.x * q.vx + q.y * q.vy = 0 ∧
      q.vx ^ 2 + q.vy ^ 2 = 1) ∧
    (Real.sqrt (q.x ^ 2 + q.y ^ 2) ≤ 1.0e-8 → q.vx = 0 ∧ q.vy = 0) := by
  have key : ∃ p, p.vx = 0 ∧ p.vy = 0 ∧ orbital_velocity p = q := by
    simp only [reset, MultithreadedParticleSystem, Option.elim, List.map_map,
      List.mem_map, List.mem_range, Function.comp] at hq
    obtain ⟨i, _, hiq⟩ := hq
    exact ⟨_, rfl, rfl, hiq⟩
  obtain ⟨p, hvx, hvy, hpq⟩ := key
  by_cases hr : Real.sqrt (p.x ^ 2 + p.y ^ 2) > 1.0e-8
  · have hq2 : q =
        { p with
            vx := -p.y / Real.sqrt (p.x ^ 2 + p.y ^ 2)
            vy := p.x / Real.sqrt (p.x ^ 2 + p.y ^ 2) } := by
      rw [← hpq]
      simp only [orbital_velocity]
      rw [if_pos hr]
    subst hq2
    dsimp only
    have h0 : (0:ℝ) < Real.sqrt (p.x ^ 2 + p.y ^ 2) := lt_trans (by norm_num) hr
    have hxy : (0:ℝ) < p.x ^ 2 + p.y ^ 2 := Real.sqrt_pos.mp h0
    have hsq : Real.sqrt (p.x ^ 2 + p.y ^ 2) ^ 2 = p.x ^ 2 + p.y ^ 2 :=
      Real.sq_sqrt (le_of_lt hxy)
    constructor
    · intro _
      refine ⟨rfl, rfl, by ring, ?_⟩
      have e1 : (-p.y / Real.sqrt (p.x ^ 2 + p.y ^ 2)) ^ 2 +
          (p.x / Real.sqrt (p.x ^ 2 + p.y ^ 2)) ^ 2 =
          (p.x ^ 2 + p.y ^ 2) / Real.sqrt (p.x ^ 2 + p.y ^ 2) ^ 2 := by
        ring
      rw [e1, hsq, div_self (ne_of_gt hxy)]
    · intro hle; linarith
  · have hq2 : q = p := by
      rw [← hpq]
      simp only [orbital_velocity]
      rw [if_neg hr]
    subst hq2
    exact ⟨fun h => absurd h (by simpa using hr), fun _ => ⟨hvx, hvy⟩⟩

/-- The single particle a concrete reset produces — spawned at (3, 4), hence
at distance 5 from the origin — satisfies the orbital-velocity contract. -/
theorem reset_orbital_velocities_witness :
    (1.0e-8 < Real.sqrt ((orbital_velocity ⟨3, 4, 0, 0, 1⟩).x ^ 2 +
        (orbital_velocity ⟨3, 4, 0, 0, 1⟩).y ^ 2) →
      (orbital_velocity ⟨3, 4, 0, 0, 1⟩).vx =
        -(orbital_velocity ⟨3, 4, 0, 0, 1⟩).y /
          Real.sqrt ((orbital_velocity ⟨3, 4, 0, 0, 1⟩).x ^ 2 +
            (orbital_velocity ⟨3, 4, 0, 0, 1⟩).y ^ 2) ∧
      (orbital_velocity ⟨3, 4, 0, 0, 1⟩).vy =
        (orbital_velocity ⟨3, 4, 0, 0, 1⟩).x /
          Real.sqrt ((orbital_velocity ⟨3, 4, 0, 0, 1⟩).x ^ 2 +
            (orbital_velocity ⟨3, 4, 0, 0, 1⟩).y ^ 2) ∧
      (orbital_velocity ⟨3, 4, 0, 0, 1⟩).x * (orbital_velocity ⟨3, 4, 0, 0, 1⟩).vx +
        (orbital_velocity ⟨3, 4, 0, 0, 1⟩).y * (orbital_velocity ⟨3, 4, 0, 0, 1⟩).vy = 0 ∧
      (orbital_velocity ⟨3, 4, 0, 0, 1⟩).vx ^ 2 +
        (orbital_velocity ⟨3, 4, 0, 0, 1⟩).vy ^ 2 = 1) ∧
    (Real.sqrt ((orbital_velocity ⟨3, 4, 0, 0, 1⟩).x ^ 2 +
        (orbital_velocity ⟨3, 4, 0, 0, 1⟩).y ^ 2) ≤ 1.0e-8 →
      (orbital_velocity ⟨3, 4, 0, 0, 1⟩).vx = 0 ∧
      (orbital_velocity ⟨3, 4, 0, 0, 1⟩).vy = 0) :=
  reset_orbital_velocities (fun _ _ => (3, 4, 1)) W0 initState
    (orbital_velocity ⟨3, 4, 0, 0, 1⟩) (List.Mem.head _)

/-- Claim C8: for every particle list, root bounds and subdivision depth cap,
the aggregate mass at the root of the freshly built quadtree equals the sum
of all particle masses — exactly, in the real-number model, so in particular
within any floating-point tolerance — and the integrator never touches
masses, so the total is the same before and after each per-step rebuild. -/
theorem root_mass_equals_total_mass (fuel : ℕ) (b : Box) (ps : List Particle)
    (acc : Particle → ℝ × ℝ) (dt : ℝ) :
    aggMass (buildTree fuel b ps) = massSum ps ∧
    massSum (ps.map fun p => integrateP (acc p).1 (acc p).2 dt p) = massSum ps := by
  constructor
  · rw [buildTree, aggMass_insertMany_of fuel (aggMass_insertP fuel)]
    simp [aggMass]
  · induction ps with
    | nil => rfl
    | cons p ps ih =>
      simp only [List.map_cons, massSum, List.sum_cons, integrateP] at ih ⊢
      rw [ih]

/-- The construction failure of the facade, modelled from the spec's error
taxonomy. -/
inductive ConstructionError where
  | invalidConfiguration : ConstructionError

/-- Modelled from the spec: construction fails with `InvalidConfiguration`
if `num_particles ≤ 0`, `thread_count ≤ 0`, `bounds ≤ 0`, or `theta < 0`
(no partial simulator is produced); otherwise it yields the simulator. -/
noncomputable def constructChecked (gen : Gen) (num_particles : ℕ) (bounds : ℝ)
    (seed : ℤ) (theta : ℝ) (dt : ℝ) (thread_count : ℕ) :
    Except ConstructionError ModelState :=
  if num_particles = 0 ∨ bounds ≤ 0 ∨ theta < 0 ∨ thread_count = 0 then
    .error .invalidConfiguration
  else
    .ok (MultithreadedParticleSystem gen num_particles bounds seed theta dt thread_count)

/-- The options of the `Thread Count` discrete slider:
`[2 ** i for i in range(int(np.log2(os.cpu_count())))]`. -/
def threadCountOptions (cpu_count : ℕ) : List ℕ :=
  (List.range (Nat.log2 cpu_count)).map fun i => 2 ^ i

/-- The values the configuration widgets can take, from their declarations:
`Particles per Thread` a `FloatSlider(start=1, end=1000, step=1)`, `Bounds` a
`FloatSlider(start=25, end=2500, step=25)`, `Time Delta` a
`FloatSlider(start=0.1, end=1.0, step=0.1)`, `Theta` a
`FloatSlider(start=0.0, end=2.0, step=0.1)`, and `Thread Count` a
`DiscreteSlider` over the powers of two below the CPU count. -/
structure WidgetRanges (cpu_count : ℕ) (w : Widgets) : Prop where
  npt_lb : 1 ≤ w.num_particles_per_thread
  npt_ub : w.num_particles_per_thread ≤ 1000
  bounds_step : ∃ k : ℕ, w.bounds = 25 + 25 * k ∧ w.bounds ≤ 2500
  dt_step : ∃ k : ℕ, w.time_delta = 0.1 + 0.1 * k ∧ w.time_delta ≤ 1
  theta_step : ∃ k : ℕ, w.theta = 0.1 * k ∧ w.theta ≤ 2
  tc_mem : w.thread_count ∈ threadCountOptions cpu_count

/-- Claim C10: the constructor call `reset` issues satisfies the facade's
validity preconditions — `num_particles ≥ 1`, `bounds ≥ 25`, `theta ≥ 0`,
`dt ≥ 0.1`, `thread_count ≥ 1` — whenever the widgets carry attainable
values, so the `InvalidConfiguration` branch of construction is unreachable
from the dashboard. -/
theorem dashboard_constructor_call_valid (cpu_count : ℕ) (gen : Gen)
    (w : Widgets) (h : WidgetRanges cpu_count w) :
    1 ≤ w.num_particles_per_thread * w.thread_count ∧
    (25:ℝ) ≤ w.bounds ∧ (0:ℝ) ≤ w.theta ∧ (0.1:ℝ) ≤ w.time_delta ∧
    1 ≤ w.thread_count ∧
    constructChecked gen (w.num_particles_per_thread * w.thread_count)
        w.bounds w.seed w.theta w.time_delta w.thread_count =
      .ok (MultithreadedParticleSystem gen
        (w.num_particles_per_thread * w.thread_count) w.bounds w.seed
        w.theta w.time_delta w.thread_count) := by
  obtain ⟨k1, hb, _⟩ := h.bounds_step
  obtain ⟨k2, hdt, _⟩ := h.dt_step
  obtain ⟨k3, hth, _⟩ := h.theta_step
  have htc : 1 ≤ w.thread_count := by
    have hm := h.tc_mem
    simp only [threadCountOptions, List.mem_map, List.mem_range] at hm
    obtain ⟨i, _, hi⟩ := hm
    rw [← hi]
    exact Nat.one_le_two_pow
  have hnpt := h.npt_lb
  have hk1 : (0:ℝ) ≤ 25 * (k1:ℝ) := by positivity
  have hk2 : (0:ℝ) ≤ 0.1 * (k2:ℝ) := by positivity
  have hk3 : (0:ℝ) ≤ 0.1 * (k3:ℝ) := by positivity
  have hb25 : (25:ℝ) ≤ w.bounds := by rw [hb]; linarith
  have hth0 : (0:ℝ) ≤ w.theta := by rw [hth]; linarith
  have hdt01 : (0.1:ℝ) ≤ w.time_delta := by rw [hdt]; linarith
  have hn1 : 1 ≤ w.num_particles_per_thread * w.thread_count := by
    calc 1 = 1 * 1 := rfl
    _ ≤ w.num_particles_per_thread * w.thread_count := Nat.mul_le_mul hnpt htc
  refine ⟨hn1, hb25, hth0, hdt01, htc, ?_⟩
  have hne : ¬(w.num_particles_per_thread * w.thread_count = 0 ∨
      w.bounds ≤ 0 ∨ w.theta < 0 ∨ w.thread_count = 0) := by
    push_neg
    exact ⟨by omega, by linarith, by linarith, by omega⟩
  unfold constructChecked
  rw [if_neg hne]

/-- A concrete attainable widget configuration, used to instantiate the
construction-validity theorem: 100 particles per thread, bounds 100, time
delta 0.1, theta 0.5, 2 threads on an 8-CPU machine. -/
noncomputable def WC : Widgets :=
  { seed := 1337, num_particles_per_thread := 100, bounds := 100,
    time_delta := 0.1, theta := 0.5, thread_count := 2, fps := 30,
    quadtree_display := false }

/-- The concrete widget configuration `WC` is attainable and its constructor
call succeeds. -/
theorem dashboard_constructor_call_valid_witness :
    1 ≤ WC.num_particles_per_thread * WC.thread_count ∧
    (25:ℝ) ≤ WC.bounds ∧ (0:ℝ) ≤ WC.theta ∧ (0.1:ℝ) ≤ WC.time_delta ∧
    1 ≤ WC.thread_count ∧
    constructChecked (fun _ _ => (3, 4, 1))
        (WC.num_particles_per_thread * WC.thread_count)
        WC.bounds WC.seed WC.theta WC.time_delta WC.thread_count =
      .ok (MultithreadedParticleSystem (fun _ _ => (3, 4, 1))
        (WC.num_particles_per_thread * WC.thread_count) WC.bounds WC.seed
        WC.theta WC.time_delta WC.thread_count) :=
  dashboard_constructor_call_valid 8 (fun _ _ => (3, 4, 1)) WC
    { npt_lb := by norm_num [WC]
      npt_ub := by norm_num [WC]
      bounds_step := ⟨3, by norm_num [WC], by norm_num [WC]⟩
      dt_step := ⟨0, by norm_num [WC], by norm_num [WC]⟩
      theta_step := ⟨5, by norm_num [WC], by norm_num [WC]⟩
      tc_mem := show (2:ℕ) ∈ threadCountOptions 8 by
        have h8 : Nat.log2 8 = 3 := by simp [Nat.log2]
        simp [threadCountOptions, h8]
        exact ⟨1, by norm_num, rfl⟩ }

end NBodyApp
